import Mathlib

/-!
Verification development for the Teppan-Onoda AI cash register
(src/main.py): a shallow embedding of the catalog, cart, checkout row
encoder, schema-tolerant ledger reader and analytics aggregator, with
theorems settling the specification's claims about them.
-/

set_option maxRecDepth 4096

/-- The product menu `MENU` of src/main.py: SKU name to unit price (yen). -/
def MENU : List (String × Nat) := [
  ("焼きそば", 500),
  ("焼きとうもろこし", 400),
  ("フランクフルト", 300),
  ("ラムネ", 250),
  ("缶ジュース", 150),
  ("焼きそば&ラムネセット", 700),
  ("焼きそば&缶ジュースセット", 600),
  ("【経シス割引券】焼きそば&缶ジュースセット", 500),
  ("【特別割引券】焼きそば&ラムネセット", 500),
  ("【PiedPiper割引券】焼きそば&缶ジュースセット", 500),
  ("【理工テ割引券】焼きそば&缶ジュースセット", 500)]

/-- `SHEET_COLUMNS` of src/main.py: the ledger's column schema in order. -/
def SHEET_COLUMNS : List String := [
  "タイムスタンプ", "TransactionID", "合計金額",
  "焼きそば", "焼きとうもろこし", "フランクフルト", "ラムネ", "缶ジュース",
  "焼きそば&ラムネセット", "焼きそば&缶ジュースセット",
  "【経シス割引券】焼きそば&缶ジュースセット", "【特別割引券】焼きそば&ラムネセット",
  "【PiedPiper割引券】焼きそば&缶ジュースセット", "【理工テ割引券】焼きそば&缶ジュースセット",
  "臨時割引券"]

/-- The three fixed non-quantity columns excluded when initialising counts. -/
def fixed_cols : List String := ["タイムスタンプ", "TransactionID", "合計金額"]

/-- Association-list lookup, mirroring Python dict key lookup
(first binding wins; Python dicts have unique keys). -/
def getA {α : Type} (l : List (String × α)) (k : String) : Option α :=
  match l with
  | [] => none
  | (k', v) :: rest => if k' = k then some v else getA rest k

/-- One entry of `st.session_state.temp_menu`: an ephemeral custom bundle
with its price and its constituent base items. -/
structure TempItem where
  price : Nat
  items : List String
deriving DecidableEq

/-- The session's ephemeral custom-bundle menu `st.session_state.temp_menu`. -/
abbrev TempMenu := List (String × TempItem)

/-- `get_combined_menu()` followed by `.get(item, 0)`: the ephemeral menu
overrides the static menu, and an unknown item yields 0. -/
def combined_menu_get (temp : TempMenu) (item : String) : Nat :=
  match getA temp item with
  | some ti => ti.price
  | none => (getA MENU item).getD 0

/-- `update_total()` of src/main.py: the cart total is the sum of
`combined_menu.get(item, 0)` over the cart sequence. -/
def update_total (temp : TempMenu) (cart : List String) : Nat :=
  (cart.map (combined_menu_get temp)).sum

/-- `add_to_cart(item_name)` of src/main.py: unconditionally appends. -/
def add_to_cart (cart : List String) (item : String) : List String :=
  cart ++ [item]

/-- Catalog resolution as the spec describes it: the price of a live
ephemeral bundle, else the static menu price, else failure. -/
def catalog_price (temp : TempMenu) (item : String) : Option Nat :=
  match getA temp item with
  | some ti => some ti.price
  | none => getA MENU item

/-- Spec-side cart total (from the specification's words, for refinement):
sum of the catalog price of every item, undefined if any item fails to
resolve. -/
def spec_cart_total (temp : TempMenu) : List String → Option Nat
  | [] => some 0
  | i :: rest => do
      let p ← catalog_price temp i
      let s ← spec_cart_total temp rest
      pure (p + s)

/-- The quantity columns: `SHEET_COLUMNS` minus the three fixed columns,
exactly the key set of `initial_counts` in the checkout handler. -/
def count_cols : List String :=
  SHEET_COLUMNS.filter (fun c => decide (c ∉ fixed_cols))

/-- `initial_counts` of the checkout handler: every quantity column at 0. -/
def initial_counts : List (String × Nat) :=
  count_cols.map (fun c => (c, 0))

/-- `counts[k] += 1` on the counts dict (the key is always present when
the handler increments, so updating matching entries is faithful). -/
def inc (counts : List (String × Nat)) (k : String) : List (String × Nat) :=
  counts.map (fun p => if p.1 = k then (p.1, p.2 + 1) else p)

/-- The inner component loop of the checkout handler: every component of
an ephemeral bundle that is a key of the counts dict is incremented;
others are silently skipped. -/
def add_components (counts : List (String × Nat)) (comps : List String) :
    List (String × Nat) :=
  comps.foldl (fun cs comp => if (getA cs comp).isSome then inc cs comp else cs) counts

/-- One iteration of the checkout handler's cart loop: an ephemeral bundle
bumps the 臨時割引券 counter and its known components; otherwise an item
that is a counts key bumps its own column; anything else is skipped. -/
def count_item (temp : TempMenu) (counts : List (String × Nat)) (item : String) :
    List (String × Nat) :=
  match getA temp item with
  | some ti => add_components (inc counts "臨時割引券") ti.items
  | none => if (getA counts item).isSome then inc counts item else counts

/-- The full cart loop of the checkout handler. -/
def checkout_counts (temp : TempMenu) (cart : List String) : List (String × Nat) :=
  cart.foldl (count_item temp) initial_counts

/-- The data of one appended ledger row (timestamp and transaction id,
being fresh random values, are abstracted away). -/
structure LedgerRow where
  total : Nat
  quantities : List (String × Nat)
deriving DecidableEq

/-- `new_row_data` of the checkout handler: the cart total captured from
`st.session_state.total_amount`, then `initial_counts.get(col, 0)` for
each column of `SHEET_COLUMNS[3:]`. -/
def encode_row (temp : TempMenu) (cart : List String) : LedgerRow :=
  { total := update_total temp cart
    quantities := (SHEET_COLUMNS.drop 3).map
      (fun c => (c, (getA (checkout_counts temp cart) c).getD 0)) }

/-- `worksheet.append_row(new_row_data)`: the encoded row is appended to
the ledger unconditionally (no invariant check exists in the handler). -/
def checkout_append (temp : TempMenu) (cart : List String)
    (ledger : List LedgerRow) : List LedgerRow :=
  ledger ++ [encode_row temp cart]

/-- The unit price a schema column carries in the static menu
(the 臨時割引券 counter column has no menu price, hence 0). -/
def sheet_price (c : String) : Nat := (getA MENU c).getD 0

/-- The schema-derived weighted value of a counts list:
sum of quantity times column unit price. -/
def counts_value (counts : List (String × Nat)) : Nat :=
  (counts.map (fun p => p.2 * sheet_price p.1)).sum

/-- The schema-derived total of a ledger row: sum over its quantity
columns of quantity times that column's unit price. -/
def schema_total (row : LedgerRow) : Nat :=
  counts_value row.quantities

/-- Numeric value of a decimal digit character, else failure. -/
def digitVal (c : Char) : Option Nat :=
  if c.isDigit then some (c.toNat - 48) else none

/-- Accumulating decimal parser over a character list; fails on any
non-digit character. -/
def parseDigitsAux : List Char → Nat → Option Nat
  | [], acc => some acc
  | c :: rest, acc =>
      match digitVal c with
      | some d => parseDigitsAux rest (acc * 10 + d)
      | none => none

/-- Model of `pd.to_numeric(·, errors='coerce')` on a cell holding an
integer literal: an optionally signed decimal number, failure (NaN) on
anything else. -/
def parseNum (s : String) : Option Int :=
  match s.data with
  | [] => none
  | '-' :: rest =>
      if rest.isEmpty then none
      else (parseDigitsAux rest 0).map (fun n => -(n : Int))
  | cs => (parseDigitsAux cs 0).map (fun n => (n : Int))

/-- Parse exactly two digits. -/
def parse2 : List Char → Option (Nat × List Char)
  | a :: b :: rest => do pure (10 * (← digitVal a) + (← digitVal b), rest)
  | _ => none

/-- Parse exactly four digits. -/
def parse4 : List Char → Option (Nat × List Char)
  | a :: b :: c :: d :: rest => do
      pure (1000 * (← digitVal a) + 100 * (← digitVal b) + 10 * (← digitVal c)
        + (← digitVal d), rest)
  | _ => none

/-- Consume one expected character. -/
def expectChar (ch : Char) : List Char → Option (List Char)
  | c :: rest => if c = ch then some rest else none
  | [] => none

/-- The first full day representable in pandas `datetime64[ns]` (the
minimum `pd.Timestamp` is 1677-09-21 00:12:43.145224193; the partially
representable boundary day is modelled as out of range), as the monotone
day key `(year * 12 + month) * 31 + day`. -/
def pandas_min_day : Nat := (1677 * 12 + 9) * 31 + 22

/-- The last full day representable in pandas `datetime64[ns]` (the
maximum `pd.Timestamp` is 2262-04-11 23:47:16.854775807; the partially
representable boundary day is modelled as out of range). -/
def pandas_max_day : Nat := (2262 * 12 + 4) * 31 + 10

/-- Model of `pd.to_datetime(·, errors='coerce')` on the timestamps the
register writes (format `%Y-%m-%d %H:%M:%S`): failure (NaT) on anything
that does not parse as such a timestamp, and also on date-times outside
the `datetime64[ns]` representable range (before 1677-09-21 or after
2262-04-11 pandas raises `OutOfBoundsDatetime`, which `errors='coerce'`
turns into NaT); the result is a monotone integer encoding of the
date-time. -/
def parseTimestamp (s : String) : Option Nat := do
  let (y, r) ← parse4 s.data
  let r ← expectChar '-' r
  let (mo, r) ← parse2 r
  let r ← expectChar '-' r
  let (d, r) ← parse2 r
  let r ← expectChar ' ' r
  let (h, r) ← parse2 r
  let r ← expectChar ':' r
  let (mi, r) ← parse2 r
  let r ← expectChar ':' r
  let (se, r) ← parse2 r
  if r.isEmpty ∧ 1 ≤ mo ∧ mo ≤ 12 ∧ 1 ≤ d ∧ d ≤ 31 ∧ h < 24 ∧ mi < 60 ∧ se < 60
      ∧ pandas_min_day ≤ (y * 12 + mo) * 31 + d
      ∧ (y * 12 + mo) * 31 + d ≤ pandas_max_day then
    some (((((y * 12 + mo) * 31 + d) * 24 + h) * 60 + mi) * 60 + se)
  else none

/-- The reindex of `load_data_from_sheet`: keep only the columns of
`SHEET_COLUMNS` that exist in the stored header, in schema order. -/
def decode_columns (stored : List String) : List String :=
  SHEET_COLUMNS.filter (fun c => decide (c ∈ stored))

/-- A raw stored row, keyed by the stored header's column names; an
absent key models an empty (NaN) cell. -/
abbrev RawRow := List (String × String)

/-- Reindex one raw row onto the decoded column set. -/
def reindex_row (stored : List String) (raw : RawRow) : RawRow :=
  (decode_columns stored).filterMap (fun c => (getA raw c).map (fun v => (c, v)))

/-- `load_data_from_sheet`: reindex onto the schema's known columns, then
`dropna(how='all')` drops rows with every cell empty. -/
def load_data (stored : List String) (raws : List RawRow) : List RawRow :=
  (raws.map (reindex_row stored)).filter (fun r => !r.isEmpty)

/-- One row after `preprocess_data`: a parsed timestamp, the coerced
total (left missing when unparseable), and the numeric quantity columns. -/
structure ProcessedRow where
  timestamp : Nat
  total : Option Int
  quantities : List (String × Int)
deriving DecidableEq

/-- Numeric coercion of one quantity cell: `pd.to_numeric(·,
errors='coerce').fillna(0)` — absent or unparseable becomes 0. -/
def cellNum (raw : RawRow) (c : String) : Int :=
  ((getA raw c).bind parseNum).getD 0

/-- `preprocess_data` on one row: drop the row if its timestamp does not
parse; coerce `合計金額` without a default; coerce each quantity column
of `SHEET_COLUMNS[3:]` that is present in the frame, defaulting to 0. -/
def preprocess_row (present : List String) (raw : RawRow) : Option ProcessedRow :=
  match parseTimestamp ((getA raw "タイムスタンプ").getD "") with
  | none => none
  | some ts => some {
      timestamp := ts
      total := (getA raw "合計金額").bind parseNum
      quantities := (SHEET_COLUMNS.drop 3).filterMap
        (fun c => if c ∈ present then some (c, cellNum raw c) else none) }

/-- `preprocess_data` over the whole frame. -/
def preprocess_data (present : List String) (rows : List RawRow) : List ProcessedRow :=
  rows.filterMap (preprocess_row present)

/-- The full read path: load from the store, then preprocess. -/
def decode_table (stored : List String) (raws : List RawRow) : List ProcessedRow :=
  preprocess_data (decode_columns stored) (load_data stored raws)

/-- `total_sales = df['合計金額'].sum()`: pandas sums skipping missing
values, so a missing total contributes 0. -/
def total_sales (rows : List ProcessedRow) : Int :=
  (rows.map (fun r => r.total.getD 0)).sum

/-- `total_transactions = len(df)`. -/
def total_transactions (rows : List ProcessedRow) : Nat := rows.length

/-- `avg_sales_per_customer`: guarded division, 0 on an empty row set. -/
def avg_sales_per_customer (rows : List ProcessedRow) : ℚ :=
  if 0 < total_transactions rows then
    (total_sales rows : ℚ) / (total_transactions rows : ℚ)
  else 0

/-- `set_menu_cols` of the discount-utilization block. -/
def set_menu_cols : List String := [
  "焼きそば&ラムネセット", "焼きそば&缶ジュースセット",
  "【経シス割引券】焼きそば&缶ジュースセット", "【特別割引券】焼きそば&ラムネセット",
  "【PiedPiper割引券】焼きそば&缶ジュースセット", "【理工テ割引券】焼きそば&缶ジュースセット",
  "臨時割引券"]

/-- `df[name].sum()` for one column over the decoded rows. -/
def col_sum (rows : List ProcessedRow) (c : String) : Int :=
  (rows.map (fun r => (getA r.quantities c).getD 0)).sum

/-- `df[name].sum() if name in df.columns else 0`. -/
def set_menu_count (stored : List String) (rows : List ProcessedRow) (c : String) : Int :=
  if c ∈ decode_columns stored then col_sum rows c else 0

/-- Does one character list start with another? -/
def startsWithChars : List Char → List Char → Bool
  | _, [] => true
  | [], _ :: _ => false
  | a :: as, b :: bs => a == b && startsWithChars as bs

/-- Substring search over character lists. -/
def hasSubChars (pat : List Char) : List Char → Bool
  | [] => pat.isEmpty
  | c :: rest => startsWithChars (c :: rest) pat || hasSubChars pat rest

/-- The regex filter `str.contains('割引券|臨時')` on a menu name. -/
def is_discount_name (s : String) : Bool :=
  hasSubChars "割引券".data s.data || hasSubChars "臨時".data s.data

/-- `total_sets_and_tickets`: sales counts summed over all set-menu and
coupon columns. -/
def total_sets_and_tickets (stored : List String) (rows : List ProcessedRow) : Int :=
  (set_menu_cols.map (set_menu_count stored rows)).sum

/-- `discount_sets`: the same sum restricted to names matching the
discount filter. -/
def discount_sets (stored : List String) (rows : List ProcessedRow) : Int :=
  ((set_menu_cols.filter is_discount_name).map (set_menu_count stored rows)).sum

/-- `discount_rate`: guarded percentage, 0 when the denominator is not
positive. -/
def discount_rate (stored : List String) (rows : List ProcessedRow) : ℚ :=
  if 0 < total_sets_and_tickets stored rows then
    (discount_sets stored rows : ℚ) / (total_sets_and_tickets stored rows : ℚ) * 100
  else 0

/-- The parameters the association-mining block passes to the external
mlxtend library: `apriori(min_support=0.05)` and
`association_rules(metric='lift', min_threshold=1)`. -/
structure MiningParams where
  min_support : ℚ
  lift_min_threshold : ℚ
deriving DecidableEq

/-- Outcome of the association-mining block: either the
insufficient-data message naming how many more transactions are needed,
or a mining run with its parameters (the mining itself is the external
mlxtend library). -/
inductive AssociationOutcome
  | insufficient (needed : Nat)
  | mined (params : MiningParams)
deriving DecidableEq

/-- `len(basket_sets)`: one basket row per decoded transaction row. -/
def basket_count (rows : List ProcessedRow) : Nat := rows.length

/-- The guard of the association-mining block: mine only with more than
10 transactions, else report that `11 - len(basket_sets)` more are
needed. -/
def association_block (rows : List ProcessedRow) : AssociationOutcome :=
  if 10 < basket_count rows then
    AssociationOutcome.mined { min_support := 5 / 100, lift_min_threshold := 1 }
  else
    AssociationOutcome.insufficient (11 - basket_count rows)

/-! ### Helper lemmas about association lists and the counts fold -/

theorem getA_isSome_iff {α : Type} (l : List (String × α)) (k : String) :
    (getA l k).isSome ↔ k ∈ l.map Prod.fst := by
  induction l with
  | nil => simp [getA]
  | cons p rest ih =>
    obtain ⟨k', v⟩ := p
    by_cases h : k' = k
    · subst h; simp [getA]
    · rw [show getA ((k', v) :: rest) k = getA rest k from by simp [getA, h]]
      rw [ih]
      simp only [List.map_cons, List.mem_cons]
      constructor
      · exact fun hm => Or.inr hm
      · rintro (hk | hm)
        · exact absurd hk.symm h
        · exact hm

theorem getA_eq_none_iff {α : Type} (l : List (String × α)) (k : String) :
    getA l k = none ↔ k ∉ l.map Prod.fst := by
  rw [← getA_isSome_iff, Option.isSome_iff_ne_none]
  tauto

theorem inc_keys (counts : List (String × Nat)) (k : String) :
    (inc counts k).map Prod.fst = counts.map Prod.fst := by
  simp only [inc, List.map_map]
  apply List.map_congr_left
  intro p _
  by_cases h : p.1 = k <;> simp [h]

theorem getA_inc (counts : List (String × Nat)) (k c : String) :
    getA (inc counts k) c =
      if c = k then (getA counts c).map (· + 1) else getA counts c := by
  induction counts with
  | nil => by_cases h : c = k <;> simp [inc, getA, h]
  | cons p rest ih =>
    obtain ⟨k', v⟩ := p
    show getA ((if k' = k then (k', v + 1) else (k', v)) :: inc rest k) c = _
    by_cases hk : k' = k
    · subst hk
      rw [if_pos rfl]
      by_cases hc : k' = c
      · subst hc
        simp [getA]
      · rw [show getA ((k', v + 1) :: inc rest k') c = getA (inc rest k') c from by
            simp [getA, hc]]
        rw [ih, show getA ((k', v) :: rest) c = getA rest c from by simp [getA, hc]]
    · rw [if_neg hk]
      by_cases hc : k' = c
      · subst hc
        simp [getA, hk]
      · rw [show getA ((k', v) :: inc rest k) c = getA (inc rest k) c from by
            simp [getA, hc]]
        rw [ih, show getA ((k', v) :: rest) c = getA rest c from by simp [getA, hc]]

/-- Occurrence count of a string in a list. -/
def occ (k : String) : List String → Nat
  | [] => 0
  | x :: rest => (if x = k then 1 else 0) + occ k rest

theorem occ_eq_zero_of_not_mem {k : String} {l : List String} (h : k ∉ l) :
    occ k l = 0 := by
  induction l with
  | nil => rfl
  | cons x rest ih =>
    have hx : ¬ x = k := fun hxk => h (hxk ▸ List.mem_cons_self x rest)
    have hr : k ∉ rest := fun hm => h (List.mem_cons_of_mem x hm)
    simp [occ, hx, ih hr]

theorem occ_eq_one_of_nodup_mem {k : String} {l : List String}
    (hnd : l.Nodup) (hm : k ∈ l) : occ k l = 1 := by
  induction l with
  | nil => cases hm
  | cons x rest ih =>
    rcases List.mem_cons.mp hm with h | h
    · subst h
      have : k ∉ rest := (List.nodup_cons.mp hnd).1
      simp [occ, occ_eq_zero_of_not_mem this]
    · have hx : ¬ x = k := by
        rintro rfl
        exact (List.nodup_cons.mp hnd).1 h
      simp [occ, hx, ih (List.nodup_cons.mp hnd).2 h]

theorem getA_isSome_inc (counts : List (String × Nat)) (k c : String) :
    (getA (inc counts k) c).isSome = (getA counts c).isSome := by
  rw [getA_inc]
  by_cases h : c = k <;> simp [h]

theorem add_components_keys (comps : List String) (counts : List (String × Nat)) :
    (add_components counts comps).map Prod.fst = counts.map Prod.fst := by
  induction comps generalizing counts with
  | nil => rfl
  | cons x rest ih =>
    show (add_components (if (getA counts x).isSome then inc counts x else counts)
      rest).map Prod.fst = _
    by_cases h : (getA counts x).isSome
    · rw [if_pos h, ih, inc_keys]
    · rw [if_neg h, ih]

theorem getA_add_components (comps : List String) (counts : List (String × Nat))
    (c : String) (hall : ∀ x ∈ comps, (getA counts x).isSome) :
    getA (add_components counts comps) c = (getA counts c).map (· + occ c comps) := by
  induction comps generalizing counts with
  | nil =>
    show getA counts c = (getA counts c).map (· + occ c [])
    cases getA counts c <;> simp [occ]
  | cons x rest ih =>
    have hx : (getA counts x).isSome := hall x (List.mem_cons_self x rest)
    show getA (add_components
      (if (getA counts x).isSome then inc counts x else counts) rest) c = _
    rw [if_pos hx]
    have hall' : ∀ y ∈ rest, (getA (inc counts x) y).isSome := by
      intro y hy
      rw [getA_isSome_inc]
      exact hall y (List.mem_cons_of_mem x hy)
    rw [ih (inc counts x) hall', getA_inc]
    by_cases hc : c = x
    · subst hc
      cases h : getA counts c <;> simp [occ, Option.map_map, Function.comp]
      omega
    · have hxc : ¬ x = c := fun h => hc h.symm
      cases h : getA counts c <;> simp [occ, hxc, hc]

theorem count_item_keys (temp : TempMenu) (counts : List (String × Nat))
    (item : String) :
    (count_item temp counts item).map Prod.fst = counts.map Prod.fst := by
  unfold count_item
  cases getA temp item with
  | some ti => rw [add_components_keys, inc_keys]
  | none =>
    by_cases h : (getA counts item).isSome
    · rw [if_pos h, inc_keys]
    · rw [if_neg h]

theorem foldl_count_item_keys (temp : TempMenu) (cart : List String)
    (counts : List (String × Nat)) :
    (cart.foldl (count_item temp) counts).map Prod.fst = counts.map Prod.fst := by
  induction cart generalizing counts with
  | nil => rfl
  | cons i rest ih =>
    show (rest.foldl (count_item temp) (count_item temp counts i)).map Prod.fst = _
    rw [ih, count_item_keys]

theorem initial_counts_keys : initial_counts.map Prod.fst = count_cols := by
  rw [initial_counts, List.map_map,
    show Prod.fst ∘ (fun c : String => (c, (0 : Nat))) = id from rfl, List.map_id]

theorem checkout_counts_keys (temp : TempMenu) (cart : List String) :
    (checkout_counts temp cart).map Prod.fst = count_cols := by
  rw [checkout_counts, foldl_count_item_keys, initial_counts_keys]

theorem getA_map_pair {α : Type} (L : List String) (f : String → α) (c : String) :
    getA (L.map (fun x => (x, f x))) c = if c ∈ L then some (f c) else none := by
  induction L with
  | nil => simp [getA]
  | cons x rest ih =>
    simp only [List.map_cons]
    by_cases h : x = c
    · subst h
      simp [getA]
    · rw [show getA ((x, f x) :: rest.map (fun y => (y, f y))) c
          = getA (rest.map (fun y => (y, f y))) c from by simp [getA, h]]
      rw [ih]
      by_cases hm : c ∈ rest
      · rw [if_pos hm, if_pos (List.mem_cons_of_mem x hm)]
      · rw [if_neg hm, if_neg (fun hcx => by
          rcases List.mem_cons.mp hcx with h1 | h1
          · exact h h1.symm
          · exact hm h1)]

theorem rebuild_assoc (counts : List (String × Nat)) (L : List String)
    (hk : counts.map Prod.fst = L) (hnd : L.Nodup) :
    L.map (fun c => (c, (getA counts c).getD 0)) = counts := by
  induction counts generalizing L with
  | nil =>
    subst hk
    rfl
  | cons p rest ih =>
    obtain ⟨k, v⟩ := p
    subst hk
    rw [List.map_cons] at hnd
    have hknotin : k ∉ rest.map Prod.fst := (List.nodup_cons.mp hnd).1
    simp only [List.map_cons]
    rw [show (k, (getA ((k, v) :: rest) k).getD 0) = (k, v) from by simp [getA]]
    rw [List.map_congr_left (fun c hc =>
      show (c, (getA ((k, v) :: rest) c).getD 0) = (c, (getA rest c).getD 0) from by
        have hck : ¬ k = c := fun h => hknotin (h ▸ hc)
        simp [getA, hck])]
    rw [ih (rest.map Prod.fst) rfl (List.nodup_cons.mp hnd).2]

theorem counts_value_inc (counts : List (String × Nat)) (k : String) :
    counts_value (inc counts k) =
      counts_value counts + occ k (counts.map Prod.fst) * sheet_price k := by
  induction counts with
  | nil => simp [counts_value, inc, occ]
  | cons p rest ih =>
    obtain ⟨k', v⟩ := p
    have hstep : inc ((k', v) :: rest) k
        = (if k' = k then (k', v + 1) else (k', v)) :: inc rest k := rfl
    rw [hstep]
    by_cases h : k' = k
    · subst h
      rw [if_pos rfl]
      have e1 : counts_value ((k', v + 1) :: inc rest k')
          = (v + 1) * sheet_price k' + counts_value (inc rest k') := by
        simp [counts_value]
      have e2 : counts_value ((k', v) :: rest)
          = v * sheet_price k' + counts_value rest := by
        simp [counts_value]
      have e3 : occ k' (((k', v) :: rest).map Prod.fst)
          = 1 + occ k' (rest.map Prod.fst) := by
        simp [occ]
      rw [e1, e2, e3, ih]
      ring
    · rw [if_neg h]
      have e1 : counts_value ((k', v) :: inc rest k)
          = v * sheet_price k' + counts_value (inc rest k) := by
        simp [counts_value]
      have e2 : counts_value ((k', v) :: rest)
          = v * sheet_price k' + counts_value rest := by
        simp [counts_value]
      have e3 : occ k (((k', v) :: rest).map Prod.fst)
          = occ k (rest.map Prod.fst) := by
        simp [occ, h]
      rw [e1, e2, e3, ih]
      ring

theorem count_cols_eq_drop : SHEET_COLUMNS.drop 3 = count_cols := by decide

theorem count_cols_nodup : count_cols.Nodup := by decide

theorem menu_keys_in_count_cols :
    ∀ x ∈ MENU.map Prod.fst, x ∈ count_cols := by decide

theorem menu_keys_occ_one :
    ∀ x ∈ MENU.map Prod.fst, occ x count_cols = 1 := by decide

theorem menu_mem_of_isSome {i : String} (h : (getA MENU i).isSome) :
    i ∈ MENU.map Prod.fst :=
  (getA_isSome_iff MENU i).mp h

/-- The quantity cells of an encoded row are exactly the counts the cart
loop computed. -/
theorem encode_row_quantities (temp : TempMenu) (cart : List String) :
    (encode_row temp cart).quantities = checkout_counts temp cart := by
  show (SHEET_COLUMNS.drop 3).map
      (fun c => (c, (getA (checkout_counts temp cart) c).getD 0))
    = checkout_counts temp cart
  rw [count_cols_eq_drop]
  exact rebuild_assoc _ _ (checkout_counts_keys temp cart) count_cols_nodup

theorem counts_value_fold (temp : TempMenu) (cart : List String) :
    ∀ counts : List (String × Nat), counts.map Prod.fst = count_cols →
    (∀ i ∈ cart, getA temp i = none ∧ (getA MENU i).isSome) →
    counts_value (cart.foldl (count_item temp) counts)
      = counts_value counts + (cart.map sheet_price).sum := by
  induction cart with
  | nil =>
    intro counts hk h
    simp
  | cons i rest ih =>
    intro counts hk h
    have hi := h i (List.mem_cons_self i rest)
    have himem : i ∈ count_cols := menu_keys_in_count_cols i (menu_mem_of_isSome hi.2)
    have hsome : (getA counts i).isSome := by
      rw [getA_isSome_iff, hk]
      exact himem
    have hstep : count_item temp counts i = inc counts i := by
      unfold count_item
      rw [hi.1, if_pos hsome]
    show counts_value (rest.foldl (count_item temp) (count_item temp counts i)) = _
    rw [hstep,
      ih (inc counts i) (by rw [inc_keys]; exact hk)
        (fun j hj => h j (List.mem_cons_of_mem i hj)),
      counts_value_inc, hk,
      menu_keys_occ_one i (menu_mem_of_isSome hi.2)]
    simp [List.map_cons]
    omega

theorem counts_value_initial : counts_value initial_counts = 0 := by
  rw [counts_value, initial_counts, List.map_map]
  apply List.sum_eq_zero
  intro x hx
  rcases List.mem_map.mp hx with ⟨c, _, rfl⟩
  simp

/-- C1 (amended): for every cart whose items are all static catalog
entries (base items, set menus or coupon sets) and none of which is a
live ephemeral bundle, the appended ledger row satisfies the write-time
invariant: its total equals the sum over the schema's quantity columns
of quantity times that column's unit price.  (The original claim also
asserted this for carts containing an ephemeral custom bundle; that part
fails, as a separate counterexample shows.) -/
theorem ledger_total_invariant_static (temp : TempMenu) (cart : List String)
    (h : ∀ i ∈ cart, getA temp i = none ∧ (getA MENU i).isSome) :
    schema_total (encode_row temp cart) = (encode_row temp cart).total := by
  rw [schema_total, encode_row_quantities, checkout_counts,
    counts_value_fold temp cart initial_counts initial_counts_keys h,
    counts_value_initial, Nat.zero_add]
  show (cart.map sheet_price).sum = update_total temp cart
  rw [update_total,
    List.map_congr_left (fun i hi =>
      show sheet_price i = combined_menu_get temp i from by
        rw [combined_menu_get, (h i hi).1, sheet_price])]

/-- Witness for `ledger_total_invariant_static` at the spec's own
end-to-end example cart (two 焼きそば and one ラムネ at 1250 yen). -/
theorem ledger_total_invariant_static_witness :
    (∀ i ∈ (["焼きそば", "焼きそば", "ラムネ"] : List String),
      getA ([] : TempMenu) i = none ∧ (getA MENU i).isSome) ∧
    schema_total (encode_row [] ["焼きそば", "焼きそば", "ラムネ"])
      = (encode_row [] ["焼きそば", "焼きそば", "ラムネ"]).total :=
  ⟨by decide, ledger_total_invariant_static [] _ (by decide)⟩

/-- The ephemeral custom bundle of the spec's §8 example: フランクフルト
and 缶ジュース sold together at 400 yen. -/
def temp_ex : TempMenu :=
  [("臨時割引(フランクフルト, 缶ジュース) - 400円",
    { price := 400, items := ["フランクフルト", "缶ジュース"] })]

/-- A cart holding one unit of that ephemeral bundle. -/
def cart_ex : List String := ["臨時割引(フランクフルト, 缶ジュース) - 400円"]

/-- C1 counterexample: for a cart containing the spec's own example
ephemeral bundle (price 400), the written row's total is 400 but the
schema-derived sum of quantity times column unit price is 450 (the
component columns carry their full unit prices and the 臨時割引券
counter column has no price), so the write-time invariant fails. -/
theorem ledger_total_invariant_custom_cx :
    (encode_row temp_ex cart_ex).total = 400 ∧
    schema_total (encode_row temp_ex cart_ex) = 450 := by decide

/-- An ephemeral bundle (フランクフルト + ラムネ at 300 yen) whose price
differs from the sum of its components' unit prices (550 yen). -/
def temp_ex3 : TempMenu :=
  [("臨時割引(フランクフルト, ラムネ) - 300円",
    { price := 300, items := ["フランクフルト", "ラムネ"] })]

/-- A cart holding one unit of that bundle. -/
def cart_ex3 : List String := ["臨時割引(フランクフルト, ラムネ) - 300円"]

/-- C3 counterexample: the computed total (300) disagrees with the
schema-derived total (550), yet the checkout handler raises no
`SchemaMismatchError` (no such check exists in src/main.py) and the row
IS appended to the ledger. -/
theorem no_schema_mismatch_guard_cx :
    schema_total (encode_row temp_ex3 cart_ex3) ≠ (encode_row temp_ex3 cart_ex3).total ∧
    checkout_append temp_ex3 cart_ex3 [] = [encode_row temp_ex3 cart_ex3] ∧
    (checkout_append temp_ex3 cart_ex3 []).length = 1 := by decide

/-- C3 (amended): the checkout handler performs no total-amount
invariant check: even when the schema-derived total disagrees with the
recorded total, the encoded row is appended unchanged and the ledger
grows by exactly one row. -/
theorem checkout_appends_despite_mismatch (temp : TempMenu) (cart : List String)
    (ledger : List LedgerRow)
    (hmis : schema_total (encode_row temp cart) ≠ (encode_row temp cart).total) :
    checkout_append temp cart ledger = ledger ++ [encode_row temp cart] ∧
    (checkout_append temp cart ledger).length = ledger.length + 1 := by
  refine ⟨rfl, ?_⟩
  simp [checkout_append]

/-- Witness for `checkout_appends_despite_mismatch` at the mismatching
ephemeral-bundle cart. -/
theorem checkout_appends_despite_mismatch_witness :
    (schema_total (encode_row temp_ex3 cart_ex3) ≠ (encode_row temp_ex3 cart_ex3).total) ∧
    (checkout_append temp_ex3 cart_ex3 [] = [encode_row temp_ex3 cart_ex3] ∧
      (checkout_append temp_ex3 cart_ex3 []).length = 0 + 1) :=
  ⟨by decide, checkout_appends_despite_mismatch temp_ex3 cart_ex3 [] (by decide)⟩

/-- C4 counterexample: adding the unresolvable name ペプシ (neither in
the static menu nor a live ephemeral bundle) does not fail and does not
leave the cart unchanged: it is appended. -/
theorem add_unknown_sku_cx :
    catalog_price [] "ペプシ" = none ∧
    add_to_cart [] "ペプシ" = ["ペプシ"] ∧
    add_to_cart [] "ペプシ" ≠ ([] : List String) := by decide

/-- C4 (amended): `add_to_cart` never rejects: any name, resolvable or
not, is appended to the cart sequence; an unresolvable name then
contributes 0 to the computed total. -/
theorem add_to_cart_always_appends (temp : TempMenu) (cart : List String)
    (item : String) (hunk : catalog_price temp item = none) :
    add_to_cart cart item = cart ++ [item] ∧
    update_total temp (add_to_cart cart item) = update_total temp cart := by
  refine ⟨rfl, ?_⟩
  have h0 : combined_menu_get temp item = 0 := by
    unfold combined_menu_get catalog_price at *
    cases htemp : getA temp item with
    | some ti => simp [htemp] at hunk
    | none =>
      simp only [htemp] at hunk ⊢
      simp [hunk]
  rw [add_to_cart, update_total, update_total, List.map_append, List.sum_append]
  simp [h0]

/-- Witness for `add_to_cart_always_appends` on a cart already holding a
焼きそば. -/
theorem add_to_cart_always_appends_witness :
    catalog_price [] "ペプシ" = none ∧
    (add_to_cart ["焼きそば"] "ペプシ" = ["焼きそば"] ++ ["ペプシ"] ∧
      update_total [] (add_to_cart ["焼きそば"] "ペプシ") = update_total [] ["焼きそば"]) :=
  ⟨by decide, add_to_cart_always_appends [] ["焼きそば"] "ペプシ" (by decide)⟩

theorem combined_menu_get_eq_catalog (temp : TempMenu) (i : String) :
    combined_menu_get temp i = (catalog_price temp i).getD 0 := by
  unfold combined_menu_get catalog_price
  cases getA temp i <;> rfl

theorem update_total_of_spec (temp : TempMenu) :
    ∀ cart t, spec_cart_total temp cart = some t → update_total temp cart = t := by
  intro cart
  induction cart with
  | nil =>
    intro t h
    rw [show spec_cart_total temp [] = some 0 from rfl] at h
    cases h
    rfl
  | cons i rest ih =>
    intro t h
    rw [show spec_cart_total temp (i :: rest)
        = (catalog_price temp i).bind (fun p =>
            (spec_cart_total temp rest).bind (fun s => some (p + s))) from rfl] at h
    cases hp : catalog_price temp i with
    | none => rw [hp] at h; cases h
    | some p =>
      rw [hp] at h
      cases hs : spec_cart_total temp rest with
      | none => rw [hs] at h; cases h
      | some s =>
        rw [hs] at h
        have ht : p + s = t := by
          simpa using h
        rw [show update_total temp (i :: rest)
            = combined_menu_get temp i + update_total temp rest from by
          simp [update_total]]
        rw [combined_menu_get_eq_catalog, hp, ih s hs]
        simpa using ht

/-- C7: for every non-empty cart all of whose items resolve against the
catalog (static menu or live ephemeral bundles), the total recorded at
encode time equals the sum of the resolved catalog price of each item
occurrence (the spec-side total `spec_cart_total`). -/
theorem cart_total_matches_catalog (temp : TempMenu) (cart : List String) (t : Nat)
    (hne : cart ≠ []) (hs : spec_cart_total temp cart = some t) :
    (encode_row temp cart).total = t :=
  update_total_of_spec temp cart t hs

/-- Witness for `cart_total_matches_catalog` at the spec's example cart
(two 焼きそば, one ラムネ): the recorded total is 1250 yen. -/
theorem cart_total_matches_catalog_witness :
    ((["焼きそば", "焼きそば", "ラムネ"] : List String) ≠ [] ∧
      spec_cart_total [] ["焼きそば", "焼きそば", "ラムネ"] = some 1250) ∧
    (encode_row [] ["焼きそば", "焼きそば", "ラムネ"]).total = 1250 :=
  ⟨⟨by decide, by decide⟩,
    cart_total_matches_catalog [] ["焼きそば", "焼きそば", "ラムネ"] 1250
      (by decide) (by decide)⟩

theorem rinji_mem_count_cols : "臨時割引券" ∈ count_cols := by decide

theorem getA_initial_counts (c : String) :
    getA initial_counts c = if c ∈ count_cols then some 0 else none :=
  getA_map_pair count_cols (fun _ => 0) c

/-- C2 counterexample: encoding one unit of the static bundle
焼きそば&ラムネセット (components 焼きそば and ラムネ per its name and
its cost entry) increments only the bundle's own column; the component
columns stay 0, contradicting the claim that every bundle's components
are incremented. -/
theorem static_bundle_not_decomposed_cx :
    getA (encode_row [] ["焼きそば&ラムネセット"]).quantities "焼きそば&ラムネセット"
      = some 1 ∧
    getA (encode_row [] ["焼きそば&ラムネセット"]).quantities "焼きそば" = some 0 ∧
    getA (encode_row [] ["焼きそば&ラムネセット"]).quantities "ラムネ" = some 0 := by
  decide

/-- C2 (amended): only ephemeral custom bundles are decomposed.
Encoding a cart holding one unit of an ephemeral bundle (with distinct
schema-known components) sets the 臨時割引券 counter column to 1 and
every component column to 1; encoding one unit of any static catalog SKU
sets only that SKU's own column to 1 and every other quantity column to
0. -/
theorem bundle_decomposition (n : String) (p : Nat) (C : List String)
    (hnd : C.Nodup) (hsub : ∀ x ∈ C, x ∈ count_cols) (hnt : "臨時割引券" ∉ C)
    (b : String) (hb : b ∈ count_cols) :
    (getA (encode_row [(n, { price := p, items := C })] [n]).quantities "臨時割引券"
        = some 1 ∧
      ∀ x ∈ C, getA (encode_row [(n, { price := p, items := C })] [n]).quantities x
        = some 1) ∧
    (getA (encode_row [] [b]).quantities b = some 1 ∧
      ∀ c ∈ count_cols, c ≠ b → getA (encode_row [] [b]).quantities c = some 0) := by
  constructor
  · rw [encode_row_quantities]
    have hcc : checkout_counts [(n, { price := p, items := C })] [n]
        = add_components (inc initial_counts "臨時割引券") C := by
      show count_item [(n, { price := p, items := C })] initial_counts n = _
      unfold count_item
      have hg : getA [(n, ({ price := p, items := C } : TempItem))] n
          = some ({ price := p, items := C } : TempItem) := by
        simp [getA]
      rw [hg]
    have hall : ∀ x ∈ C, (getA (inc initial_counts "臨時割引券") x).isSome := by
      intro x hx
      rw [getA_isSome_inc, getA_initial_counts, if_pos (hsub x hx)]
      rfl
    constructor
    · rw [hcc, getA_add_components C _ _ hall, getA_inc, if_pos rfl,
        getA_initial_counts, if_pos rinji_mem_count_cols,
        occ_eq_zero_of_not_mem hnt]
      rfl
    · intro x hx
      have hxn : ¬ x = "臨時割引券" := fun h => hnt (h ▸ hx)
      rw [hcc, getA_add_components C _ _ hall, getA_inc, if_neg hxn,
        getA_initial_counts, if_pos (hsub x hx),
        occ_eq_one_of_nodup_mem hnd hx]
      rfl
  · rw [encode_row_quantities]
    have hbsome : (getA initial_counts b).isSome := by
      rw [getA_initial_counts, if_pos hb]
      rfl
    have hcc : checkout_counts [] [b] = inc initial_counts b := by
      show count_item [] initial_counts b = _
      unfold count_item
      rw [show getA ([] : TempMenu) b = none from rfl, if_pos hbsome]
    constructor
    · rw [hcc, getA_inc, if_pos rfl, getA_initial_counts, if_pos hb]
      rfl
    · intro c hc hcb
      rw [hcc, getA_inc, if_neg hcb, getA_initial_counts, if_pos hc]

/-- Witness for `bundle_decomposition` at the spec's §8 example bundle
(フランクフルト + 缶ジュース at 400 yen) and the static bundle
焼きそば&ラムネセット. -/
theorem bundle_decomposition_witness :
    ((["フランクフルト", "缶ジュース"] : List String).Nodup ∧
      (∀ x ∈ (["フランクフルト", "缶ジュース"] : List String), x ∈ count_cols) ∧
      "臨時割引券" ∉ (["フランクフルト", "缶ジュース"] : List String) ∧
      "焼きそば&ラムネセット" ∈ count_cols) ∧
    ((getA (encode_row temp_ex cart_ex).quantities "臨時割引券" = some 1 ∧
      ∀ x ∈ (["フランクフルト", "缶ジュース"] : List String),
        getA (encode_row temp_ex cart_ex).quantities x = some 1) ∧
    (getA (encode_row [] ["焼きそば&ラムネセット"]).quantities "焼きそば&ラムネセット"
        = some 1 ∧
      ∀ c ∈ count_cols, c ≠ "焼きそば&ラムネセット" →
        getA (encode_row [] ["焼きそば&ラムネセット"]).quantities c = some 0)) :=
  ⟨⟨by decide, by decide, by decide, by decide⟩,
    bundle_decomposition "臨時割引(フランクフルト, 缶ジュース) - 400円" 400
      ["フランクフルト", "缶ジュース"] (by decide) (by decide) (by decide)
      "焼きそば&ラムネセット" (by decide)⟩

theorem add_components_eq_filter (comps : List String) (counts : List (String × Nat)) :
    add_components counts comps
      = add_components counts (comps.filter (fun x => (getA counts x).isSome)) := by
  induction comps generalizing counts with
  | nil => rfl
  | cons x rest ih =>
    show add_components (if (getA counts x).isSome then inc counts x else counts) rest
      = _
    by_cases h : (getA counts x).isSome
    · rw [if_pos h]
      rw [show (x :: rest).filter (fun y => (getA counts y).isSome)
          = x :: rest.filter (fun y => (getA counts y).isSome) from by
        simp [List.filter_cons, h]]
      show _ = add_components
        (if (getA counts x).isSome then inc counts x else counts)
        (rest.filter (fun y => (getA counts y).isSome))
      rw [if_pos h, ih (inc counts x)]
      congr 1
      apply List.filter_congr
      intro y _
      rw [getA_isSome_inc]
    · rw [if_neg h]
      rw [show (x :: rest).filter (fun y => (getA counts y).isSome)
          = rest.filter (fun y => (getA counts y).isSome) from by
        simp [List.filter_cons, h]]
      exact ih counts

/-- C10: the checkout encoder is total and silently skips unresolvable
names: (a) a cart item that is neither a live ephemeral bundle nor a
quantity-column name leaves the quantity counts unchanged; (b) for an
ephemeral bundle, exactly the 臨時割引券 counter and those components
that ARE quantity-column names are incremented — components absent from
the schema are silently dropped rather than raising. -/
theorem encode_skips_unknown_names (temp : TempMenu) (cart : List String)
    (item : String) :
    (getA temp item = none → item ∉ count_cols →
      checkout_counts temp (cart ++ [item]) = checkout_counts temp cart) ∧
    (∀ ti, getA temp item = some ti →
      checkout_counts temp (cart ++ [item])
        = add_components (inc (checkout_counts temp cart) "臨時割引券")
            (ti.items.filter (fun x => decide (x ∈ count_cols)))) := by
  have hfold : checkout_counts temp (cart ++ [item])
      = count_item temp (checkout_counts temp cart) item := by
    rw [checkout_counts, List.foldl_append]
    rfl
  have hkeys := checkout_counts_keys temp cart
  constructor
  · intro htemp hmem
    rw [hfold]
    unfold count_item
    rw [htemp]
    have : ¬ (getA (checkout_counts temp cart) item).isSome := by
      rw [getA_isSome_iff, hkeys]
      exact hmem
    rw [if_neg this]
  · intro ti hti
    rw [hfold]
    unfold count_item
    rw [hti]
    show add_components (inc (checkout_counts temp cart) "臨時割引券") ti.items = _
    rw [add_components_eq_filter ti.items]
    congr 1
    apply List.filter_congr
    intro y _
    rw [getA_isSome_inc]
    by_cases hm : y ∈ count_cols
    · have hy : (getA (checkout_counts temp cart) y).isSome = true := by
        rw [getA_isSome_iff, hkeys]
        exact hm
      simp [hy, hm]
    · have hy : (getA (checkout_counts temp cart) y).isSome = false := by
        rw [Bool.eq_false_iff]
        intro hcon
        apply hm
        have hmem := (getA_isSome_iff (checkout_counts temp cart) y).mp hcon
        rw [hkeys] at hmem
        exact hmem
      simp [hy, hm]

/-- An ephemeral bundle containing a component (たこ焼き) that is not a
schema quantity column. -/
def temp_w : TempMenu :=
  [("臨時割引(フランクフルト, たこ焼き) - 350円",
    { price := 350, items := ["フランクフルト", "たこ焼き"] })]

/-- Witness for `encode_skips_unknown_names`: an unresolvable item
(ペプシ) is skipped, and an ephemeral bundle's unknown component
(たこ焼き) is filtered out while フランクフルト is kept. -/
theorem encode_skips_unknown_names_witness :
    (getA ([] : TempMenu) "ペプシ" = none ∧ "ペプシ" ∉ count_cols ∧
      checkout_counts [] (["焼きそば"] ++ ["ペプシ"]) = checkout_counts [] ["焼きそば"]) ∧
    (getA temp_w "臨時割引(フランクフルト, たこ焼き) - 350円"
        = some { price := 350, items := ["フランクフルト", "たこ焼き"] } ∧
      checkout_counts temp_w ([] ++ ["臨時割引(フランクフルト, たこ焼き) - 350円"])
        = add_components (inc (checkout_counts temp_w []) "臨時割引券")
            ((["フランクフルト", "たこ焼き"] : List String).filter
              (fun x => decide (x ∈ count_cols)))) :=
  ⟨⟨by decide, by decide,
      (encode_skips_unknown_names [] ["焼きそば"] "ペプシ").1 (by decide) (by decide)⟩,
    ⟨by decide,
      (encode_skips_unknown_names temp_w [] "臨時割引(フランクフルト, たこ焼き) - 350円").2
        { price := 350, items := ["フランクフルト", "たこ焼き"] } (by decide)⟩⟩

theorem filterMap_guard_eq {α : Type} (L : List String) (P : String → Prop)
    [DecidablePred P] (f : String → α) :
    L.filterMap (fun x => if P x then some (x, f x) else none)
      = (L.filter (fun x => decide (P x))).map (fun x => (x, f x)) := by
  induction L with
  | nil => rfl
  | cons x rest ih =>
    rw [List.filterMap_cons, List.filter_cons]
    by_cases hp : P x
    · rw [if_pos hp, if_pos (by simp [hp]), List.map_cons, ih]
    · rw [if_neg hp, if_neg (by simp [hp]), ih]

theorem getA_guard {α : Type} (L : List String) (P : String → Prop)
    [DecidablePred P] (f : String → α) (c : String) :
    getA (L.filterMap (fun x => if P x then some (x, f x) else none)) c
      = if c ∈ L ∧ P c then some (f c) else none := by
  rw [filterMap_guard_eq, getA_map_pair]
  by_cases h : c ∈ L ∧ P c
  · rw [if_pos (List.mem_filter.mpr ⟨h.1, by simp [h.2]⟩), if_pos h]
  · rw [if_neg (fun hc => h ⟨(List.mem_filter.mp hc).1, by
        have hd := (List.mem_filter.mp hc).2
        simpa using hd⟩), if_neg h]

/-- Unfolding of a successful `preprocess_row`: the total is the coerced
合計金額 cell with no default, and the quantities are the guarded
coercions of the schema's quantity columns present in the frame. -/
theorem preprocess_row_some (present : List String) (raw : RawRow)
    (pr : ProcessedRow) (hp : preprocess_row present raw = some pr) :
    pr.total = (getA raw "合計金額").bind parseNum ∧
    pr.quantities = (SHEET_COLUMNS.drop 3).filterMap
      (fun x => if x ∈ present then some (x, cellNum raw x) else none) := by
  unfold preprocess_row at hp
  cases hts : parseTimestamp ((getA raw "タイムスタンプ").getD "") with
  | none =>
    rw [hts] at hp
    cases hp
  | some ts =>
    rw [hts] at hp
    cases hp
    exact ⟨rfl, rfl⟩

theorem drop3_subset_sheet : ∀ x ∈ SHEET_COLUMNS.drop 3, x ∈ SHEET_COLUMNS := by
  decide

/-- The stored header of the C5 counterexample: it lacks most schema
columns (ラムネ among them) and has an extra unknown column 謎カラム. -/
def stored5 : List String :=
  ["タイムスタンプ", "TransactionID", "合計金額", "焼きそば", "謎カラム"]

/-- A well-formed raw row under that header. -/
def raw5 : RawRow :=
  [("タイムスタンプ", "2025-10-12 10:00:00"), ("TransactionID", "abc"),
   ("合計金額", "500"), ("焼きそば", "1"), ("謎カラム", "7")]

/-- C5 counterexample: the extra stored column 謎カラム is ignored (that
half of the claim holds), but the schema column ラムネ absent from the
stored header is NOT present with value 0 in the decoded row — it is
absent from the decoded row altogether (`getA` yields `none`). -/
theorem decode_missing_column_cx :
    "謎カラム" ∉ decode_columns stored5 ∧
    "ラムネ" ∈ SHEET_COLUMNS ∧
    (decode_table stored5 [raw5]).map (fun r => getA r.quantities "ラムネ")
      = [none] := by
  decide

/-- C5 (amended): the decoder keeps exactly the intersection of the
current schema and the stored header: stored columns outside the schema
are ignored, and a decoded row carries a quantity entry for a column iff
that column is both a schema quantity column and present in the stored
header — schema columns absent from storage are dropped, not zero-filled. -/
theorem decode_schema_drift (stored : List String) (raw : RawRow)
    (pr : ProcessedRow) (c : String)
    (hp : preprocess_row (decode_columns stored) raw = some pr) :
    (c ∈ decode_columns stored ↔ c ∈ SHEET_COLUMNS ∧ c ∈ stored) ∧
    ((getA pr.quantities c).isSome ↔ c ∈ SHEET_COLUMNS.drop 3 ∧ c ∈ stored) := by
  have hdc : ∀ d : String, d ∈ decode_columns stored ↔ d ∈ SHEET_COLUMNS ∧ d ∈ stored := by
    intro d
    rw [decode_columns, List.mem_filter]
    simp
  refine ⟨hdc c, ?_⟩
  have hq := (preprocess_row_some _ raw pr hp).2
  rw [hq, getA_guard (SHEET_COLUMNS.drop 3)
    (fun x => x ∈ decode_columns stored) (cellNum raw) c]
  by_cases hcond : c ∈ SHEET_COLUMNS.drop 3 ∧ c ∈ decode_columns stored
  · rw [if_pos hcond]
    simp only [Option.isSome_some]
    constructor
    · intro _
      exact ⟨hcond.1, ((hdc c).mp hcond.2).2⟩
    · intro _
      trivial
  · rw [if_neg hcond]
    simp only [Option.isSome_none]
    constructor
    · intro hfalse
      cases hfalse
    · intro hcs
      exact absurd ⟨hcs.1,
        (hdc c).mpr ⟨drop3_subset_sheet c hcs.1, hcs.2⟩⟩ hcond

/-- The stored header of the decode witnesses. -/
def stored_w : List String := ["タイムスタンプ", "TransactionID", "合計金額", "焼きそば"]

/-- A raw row under that header. -/
def raw_w : RawRow :=
  [("タイムスタンプ", "2025-10-12 10:00:00"), ("合計金額", "500"), ("焼きそば", "1")]

/-- The decoded result of `raw_w`. -/
def pr_w : ProcessedRow :=
  { timestamp := 65112976800, total := some 500, quantities := [("焼きそば", 1)] }

/-- Witness for `decode_schema_drift` at the missing column ラムネ. -/
theorem decode_schema_drift_witness :
    (preprocess_row (decode_columns stored_w) raw_w = some pr_w) ∧
    (("ラムネ" ∈ decode_columns stored_w ↔
        "ラムネ" ∈ SHEET_COLUMNS ∧ "ラムネ" ∈ stored_w) ∧
      ((getA pr_w.quantities "ラムネ").isSome ↔
        "ラムネ" ∈ SHEET_COLUMNS.drop 3 ∧ "ラムネ" ∈ stored_w)) :=
  ⟨by decide, decode_schema_drift stored_w raw_w pr_w "ラムネ" (by decide)⟩

/-- A raw row with a valid, in-range timestamp whose 合計金額 cell and
焼きそば cell are both unparseable. -/
def raw6 : RawRow :=
  [("タイムスタンプ", "2025-10-12 10:00:00"), ("合計金額", "abc"), ("焼きそば", "xyz")]

/-- C6 counterexample: for a row surviving the timestamp drop, an
unparseable quantity cell does become 0, but the unparseable 合計金額
cell does NOT become 0 — it stays missing (NaN): `preprocess_data`
applies `.fillna(0)` only to the quantity columns, not to 合計金額. -/
theorem total_not_zeroed_cx :
    (preprocess_row (decode_columns SHEET_COLUMNS) raw6).map ProcessedRow.total
      = some none ∧
    (preprocess_row (decode_columns SHEET_COLUMNS) raw6).map ProcessedRow.total
      ≠ some (some 0) ∧
    (preprocess_row (decode_columns SHEET_COLUMNS) raw6).map
        (fun r => getA r.quantities "焼きそば") = some (some 0) := by
  decide

/-- C6 (amended): during decode, every quantity column present in the
frame is coerced numerically with absent or unparseable cells becoming
0; the 合計金額 column is coerced WITHOUT a default, so an unparseable
or absent total stays missing (NaN) in the decoded row rather than
becoming 0 (downstream pandas sums then skip it). -/
theorem preprocess_numeric_coercion (present : List String) (raw : RawRow)
    (pr : ProcessedRow) (c : String)
    (hp : preprocess_row present raw = some pr)
    (hc : c ∈ SHEET_COLUMNS.drop 3) (hcp : c ∈ present) :
    ((getA raw c).bind parseNum = none → getA pr.quantities c = some 0) ∧
    pr.total = (getA raw "合計金額").bind parseNum := by
  obtain ⟨htot, hq⟩ := preprocess_row_some present raw pr hp
  refine ⟨?_, htot⟩
  intro hnone
  rw [hq, getA_guard (SHEET_COLUMNS.drop 3) (fun x => x ∈ present)
    (cellNum raw) c, if_pos ⟨hc, hcp⟩]
  rw [show cellNum raw c = ((getA raw c).bind parseNum).getD 0 from rfl, hnone]
  rfl

/-- The decoded result of `raw6` under the full schema. -/
def pr6 : ProcessedRow :=
  { timestamp := 65112976800, total := none,
    quantities := count_cols.map (fun c => (c, (0 : Int))) }

/-- Witness for `preprocess_numeric_coercion` at the 焼きそば column of
`raw6`. -/
theorem preprocess_numeric_coercion_witness :
    (preprocess_row (decode_columns SHEET_COLUMNS) raw6 = some pr6 ∧
      "焼きそば" ∈ SHEET_COLUMNS.drop 3 ∧
      "焼きそば" ∈ decode_columns SHEET_COLUMNS) ∧
    (((getA raw6 "焼きそば").bind parseNum = none →
        getA pr6.quantities "焼きそば" = some 0) ∧
      pr6.total = (getA raw6 "合計金額").bind parseNum) :=
  ⟨⟨by decide, by decide, by decide⟩,
    preprocess_numeric_coercion (decode_columns SHEET_COLUMNS) raw6 pr6
      "焼きそば" (by decide) (by decide) (by decide)⟩

/-- C8: the association-mining block never mines on 10 or fewer
transactions: below 11 rows it reports that `11 - n` more transactions
are needed and returns no rule set; with 11 or more rows it runs the
miner with `min_support = 0.05` and lift threshold 1. -/
theorem association_mining_guard (rows : List ProcessedRow) :
    (basket_count rows < 11 →
      association_block rows
        = AssociationOutcome.insufficient (11 - basket_count rows)) ∧
    (10 < basket_count rows →
      association_block rows = AssociationOutcome.mined
        { min_support := 5 / 100, lift_min_threshold := 1 }) := by
  constructor
  · intro h
    rw [association_block, if_neg (by omega)]
  · intro h
    rw [association_block, if_pos h]

/-- An arbitrary decoded row used to build row sets of a given size. -/
def pr0 : ProcessedRow := { timestamp := 0, total := none, quantities := [] }

/-- Witness for `association_mining_guard` at 0 rows (insufficient,
needs 11 more) and at 11 rows (mining runs). -/
theorem association_mining_guard_witness :
    (basket_count ([] : List ProcessedRow) < 11 ∧
      association_block ([] : List ProcessedRow)
        = AssociationOutcome.insufficient (11 - basket_count [])) ∧
    (10 < basket_count (List.replicate 11 pr0) ∧
      association_block (List.replicate 11 pr0) = AssociationOutcome.mined
        { min_support := 5 / 100, lift_min_threshold := 1 }) :=
  ⟨⟨by decide, (association_mining_guard []).1 (by decide)⟩,
    ⟨by decide, (association_mining_guard (List.replicate 11 pr0)).2 (by decide)⟩⟩

/-- C9: the aggregator never divides by zero: on an empty decoded row
set the summary reports `total_sales = 0` and `avg_ticket = 0`; the
average is computed as total over count only when the count is
positive; and the discount utilization rate is 0 whenever the
set-and-ticket denominator is 0. -/
theorem aggregator_never_divides_by_zero (stored : List String)
    (rows : List ProcessedRow) :
    (rows = [] → total_sales rows = 0 ∧ avg_sales_per_customer rows = 0) ∧
    (0 < total_transactions rows →
      avg_sales_per_customer rows
        = (total_sales rows : ℚ) / (total_transactions rows : ℚ)) ∧
    (total_sets_and_tickets stored rows = 0 → discount_rate stored rows = 0) := by
  refine ⟨?_, ?_, ?_⟩
  · rintro rfl
    exact ⟨rfl, by
      rw [avg_sales_per_customer,
        if_neg (show ¬ 0 < total_transactions ([] : List ProcessedRow) from by decide)]⟩
  · intro h
    rw [avg_sales_per_customer, if_pos h]
  · intro h
    rw [discount_rate, if_neg (by rw [h]; exact lt_irrefl 0)]

/-- A single decoded row with total 100. -/
def pr1 : ProcessedRow := { timestamp := 0, total := some 100, quantities := [] }

/-- Witness for `aggregator_never_divides_by_zero`: the empty row set
yields 0 sales and 0 average; one row with total 100 yields the guarded
quotient; and an all-zero set-menu tally yields a 0 discount rate. -/
theorem aggregator_never_divides_by_zero_witness :
    (([] : List ProcessedRow) = [] ∧
      total_sales [] = 0 ∧ avg_sales_per_customer [] = 0) ∧
    (0 < total_transactions [pr1] ∧
      avg_sales_per_customer [pr1]
        = (total_sales [pr1] : ℚ) / (total_transactions [pr1] : ℚ)) ∧
    (total_sets_and_tickets [] [pr1] = 0 ∧ discount_rate [] [pr1] = 0) :=
  ⟨⟨rfl, (aggregator_never_divides_by_zero [] []).1 rfl⟩,
    ⟨by decide, (aggregator_never_divides_by_zero [] [pr1]).2.1 (by decide)⟩,
    ⟨by decide, (aggregator_never_divides_by_zero [] [pr1]).2.2 (by decide)⟩⟩

/-- The timestamp model honours the `datetime64[ns]` bounds: a year-1
date-time is coerced to NaT (dropped), while an in-range 2025 date-time
parses. -/
theorem parseTimestamp_range_model :
    parseTimestamp "0001-01-01 00:00:00" = none ∧
    (parseTimestamp "2025-10-12 10:00:00").isSome := by decide
